import Mathlib

/-!
Shallow embedding of the WikipediaWordsDistribution repository
(src/wiki_word_count.py and src/decorators.py) in Lean 4.

Python effects are made explicit: exceptions become an error type
threaded through `Except`, the per-attempt HTTP fetch becomes a function
from the attempt index to that attempt's outcome, and the shared pandas
DataFrame becomes a `Table` record mutated by explicit state passing.
-/

namespace WikiWC

/-- Python exceptions that flow through the program.
`rateLimit` is `RateLimitException`, `transport` covers the
`requests.exceptions` family (HTTPError, ConnectionError,
RequestException), `pageNotFound` is `PageNotFoundException`,
`keyError` stands for KeyError/IndexError/StopIteration raised while
digging into the JSON, and `unboundLocal` is Python's UnboundLocalError
(a local variable referenced before assignment). -/
inductive PyExc where
  | rateLimit
  | transport (detail : String)
  | pageNotFound (msg : String)
  | keyError
  | unboundLocal
deriving DecidableEq

/-- What a call of the decorator-wrapped `get_wikipedia_page` produces:
`returned v` — some attempt returned value `v` (`v = none` is Python
`None`, i.e. page not found or missing query key);
`exhausted` — all `max_retries` attempts raised `RateLimitException`,
the wrapper logged "Could not retrieve page ..." and fell off the end,
implicitly returning Python `None`;
`raised e` — an attempt raised an exception other than
`RateLimitException`, which the wrapper does not catch. -/
inductive RetryOutcome where
  | returned (v : Option String)
  | exhausted
  | raised (e : PyExc)
deriving DecidableEq

/-- `max_retries = 3` in src/wiki_word_count.py line 17
(`MAX_RETRIES = 3` in src/decorators.py line 7). -/
def max_retries : Nat := 3

/-- The `for attempt in range(max_retries)` loop of
`retry_on_rate_limit_exception` (src/wiki_word_count.py lines 30-44).
`f i` is the result of the (i+1)-st invocation of the wrapped function:
`Except.ok v` if it returned `v`, `Except.error e` if it raised `e`.
The state is (number of calls made so far, remaining loop iterations);
the result records how many calls were made in total. -/
def retryLoop (f : Nat → Except PyExc (Option String)) :
    Nat → Nat → Nat × RetryOutcome
  | calls, 0 => (calls, RetryOutcome.exhausted)
  | calls, fuel + 1 =>
    match f calls with
    | Except.ok r => (calls + 1, RetryOutcome.returned r)
    | Except.error PyExc.rateLimit => retryLoop f (calls + 1) fuel
    | Except.error e => (calls + 1, RetryOutcome.raised e)

/-- The retry decorator: run the wrapped operation up to `max_retries`
times, swallowing `RateLimitException` (and sleeping a random 1..7 s,
irrelevant to the value computed) and stopping on anything else. -/
def retry_on_rate_limit_exception
    (f : Nat → Except PyExc (Option String)) : Nat × RetryOutcome :=
  retryLoop f 0 max_retries

/-- How the wrapper treats a single attempt's result when it does not
raise `RateLimitException`: a plain return is passed through, any other
exception propagates. -/
def attemptOutcome : Except PyExc (Option String) → RetryOutcome
  | Except.ok v => RetryOutcome.returned v
  | Except.error e => RetryOutcome.raised e

/-! ## Tokenizer: `re.findall(r'\b[a-zA-Z]+\b', page_content)` -/

/-- A regex word character: `\w` restricted to ASCII
(letter, digit or underscore); `Char.isAlpha` is exactly `[a-zA-Z]`.
The claims and counterexamples only involve ASCII text, where this
matches Python's Unicode-aware `\w`. -/
def isWordChar (c : Char) : Bool := c.isAlpha || c.isDigit || c == '_'

/-- Flush a pending (reversed) run of characters as a completed match. -/
def emit : Option (List Char) → List (List Char)
  | some r => [r.reverse]
  | none => []

/-- Left-to-right scan implementing `re.findall(r'\b[a-zA-Z]+\b')`.
A match is a run of ASCII letters that starts at a word boundary
(previous character absent or not a word character) and ends at one
(next character absent or not a word character).  State: whether the
previous character was a word character, and the letters (reversed) of
a candidate run that started at a boundary.  A digit or an underscore
adjacent to a letter run is a word character, so it destroys the
boundary and the candidate run is discarded, exactly as the regex
engine finds no match there. -/
def scanWords : Bool → Option (List Char) → List Char → List (List Char)
  | _, pending, [] => emit pending
  | prevW, pending, c :: cs =>
    if c.isAlpha then
      match pending with
      | some r => scanWords true (some (c :: r)) cs
      | none =>
        if prevW then scanWords true none cs
        else scanWords true (some [c]) cs
    else if isWordChar c then
      scanWords true none cs
    else
      emit pending ++ scanWords false none cs

/-- `re.findall(r'\b[a-zA-Z]+\b', s)` — the `words` list of
src/wiki_word_count.py line 116, original case preserved. -/
def tokenize (s : String) : List String :=
  (scanWords false none s.data).map (fun r => String.mk r)

/-! ## The word-count dictionary (lines 117-121) -/

/-- Lookup in an insertion-ordered association list, first match wins —
Python `dict` access for a dict built by insertion. -/
def dictLookup : List (String × Nat) → String → Option Nat
  | [], _ => none
  | p :: d, w => if p.1 = w then some p.2 else dictLookup d w

/-- One iteration of the counting loop: if the (lowered) word is
already a key, increment its count, otherwise append it with count 1. -/
def addWord (d : List (String × Nat)) (w : String) : List (String × Nat) :=
  if (dictLookup d w).isSome then
    d.map (fun p => if p.1 = w then (p.1, p.2 + 1) else p)
  else
    d ++ [(w, 1)]

/-- The `words_count_dict` built by lines 117-121: each found word is
lower-cased and counted, insertion order preserved. -/
def words_count_dict_of (words : List String) : List (String × Nat) :=
  words.foldl (fun d w => addWord d w.toLower) []

/-! ## JSON and the single fetch attempt (lines 68-96) -/

/-- The JSON values `response.json()` can produce, with objects as
insertion-ordered field lists (Python dict iteration order). -/
inductive Json where
  | null
  | str (s : String)
  | obj (fields : List (String × Json))
  | arr (items : List Json)

/-- `data == None`: the parsed body is JSON null. -/
def Json.isNull : Json → Bool
  | Json.null => true
  | _ => false

/-- `'query' in data`: key membership for a dict; on any non-dict the
containment test used by the source is false for the key "query". -/
def Json.hasKey : Json → String → Bool
  | Json.obj fields, k => fields.any (fun p => p.1 == k)
  | _, _ => false

/-- `data[k]`: dict indexing, KeyError when absent or not a dict. -/
def Json.getKey : Json → String → Except PyExc Json
  | Json.obj fields, k =>
    match fields.find? (fun p => p.1 == k) with
    | some p => Except.ok p.2
    | none => Except.error PyExc.keyError
  | _, _ => Except.error PyExc.keyError

/-- `next(iter(d))`: the first key of a dict (insertion order);
StopIteration / TypeError on an empty or non-dict value, modelled as
`keyError`. -/
def Json.firstKey : Json → Except PyExc String
  | Json.obj (p :: _) => Except.ok p.1
  | _ => Except.error PyExc.keyError

/-- `xs[0]`: list indexing, IndexError (modelled as `keyError`) when out
of range or not a list. -/
def Json.indexAt : Json → Nat → Except PyExc Json
  | Json.arr items, i =>
    match items.get? i with
    | some v => Except.ok v
    | none => Except.error PyExc.keyError
  | _, _ => Except.error PyExc.keyError

/-- One HTTP response from `requests.get`: its status code and parsed
JSON body.  A transport failure (connection error, timeout, undecodable
body) never reaches this code path: it is an attempt that is
`Except.error (PyExc.transport _)` directly. -/
structure HttpResponse where
  status_code : Nat
  body : Json

/-- One attempt of `get_wikipedia_page` (src/wiki_word_count.py lines
68-96), before the retry decorator:
status 429 → raise RateLimitException;
`data == None` → raise RateLimitException;
`'query' not in data` → print an error and return None;
first page id `"-1"` → return None (page not found);
otherwise return `data["query"]["pages"][page_id]["revisions"][0]["*"]`.
A non-string content value would fail later inside `re.findall`
(TypeError); it is modelled as an error here. -/
def get_wikipedia_page_once (resp : HttpResponse) :
    Except PyExc (Option String) :=
  if resp.status_code = 429 then Except.error PyExc.rateLimit
  else
    let data := resp.body
    if data.isNull then Except.error PyExc.rateLimit
    else if ¬ data.hasKey "query" then Except.ok none
    else do
      let query ← data.getKey "query"
      let pages ← query.getKey "pages"
      let pid ← pages.firstKey
      if pid = "-1" then return none
      else do
        let page ← pages.getKey pid
        let revs ← page.getKey "revisions"
        let rev0 ← revs.indexAt 0
        let content ← rev0.getKey "*"
        match content with
        | Json.str s => return (some s)
        | _ => Except.error PyExc.keyError

/-- The decorated `get_wikipedia_page`: the retry wrapper around one
fetch attempt per loop iteration, `resps i` being the HTTP response the
(i+1)-st attempt observes. -/
def get_wikipedia_page (resps : Nat → HttpResponse) : Nat × RetryOutcome :=
  retry_on_rate_limit_exception (fun i => get_wikipedia_page_once (resps i))

/-! ## The aggregation table (pandas DataFrame) -/

/-- The shared DataFrame: row labels (`index=topic_list`), the column
labels in creation order, and the cell contents.  A cell holds `none`
where the DataFrame holds NaN/None ("absent"). -/
structure Table where
  index : List String
  cols : List String
  cells : String → String → Option Nat

/-- `pd.DataFrame(index=topic_list)` (line 148): all rows present, no
columns, every cell absent. -/
def initTable (topics : List String) : Table :=
  { index := topics, cols := [], cells := fun _ _ => none }

/-- One iteration of the absorb loop (lines 135-138): create the column
if missing (`df[word] = None`, which fills it with absent cells, a
no-op on our cell map), then `df.at[topic, word] = count`. -/
def absorbStep (topic : String) (t : Table) (p : String × Nat) : Table :=
  { index := t.index
    cols := if p.1 ∈ t.cols then t.cols else t.cols ++ [p.1]
    cells := fun tp wd =>
      if tp = topic ∧ wd = p.1 then some p.2 else t.cells tp wd }

/-- The whole lock-protected loop of `word_distribution_task` (lines
134-139): absorb one topic's word-count dictionary into the table. -/
def absorbRow (t : Table) (topic : String) (d : List (String × Nat)) : Table :=
  d.foldl (absorbStep topic) t

/-- The effect of the absorb loop on one row, in isolation: each entry
of the dictionary overwrites the cell of its word. -/
def rowUpd (d : List (String × Nat)) (row : String → Option Nat) :
    String → Option Nat :=
  d.foldl (fun r p => fun wd => if wd = p.1 then some p.2 else r wd) row

/-- A run of absorb operations in sequence (the linearization the lock
enforces on concurrent `word_distribution_task` calls). -/
def absorbMany (t : Table) (ops : List (String × List (String × Nat))) : Table :=
  ops.foldl (fun t p => absorbRow t p.1 p.2) t

/-! ## words_distribution_to_dict and word_distribution_task -/

/-- `words_distribution_to_dict` (lines 101-123), with the outcome of
the wrapped fetch passed in.  The try/except catches only the
`requests.exceptions` family; after such a catch the local
`page_content` was never assigned, so the subsequent
`if page_content == None` raises UnboundLocalError.  A `None` result —
from a not-found page, a missing "query" key, or the wrapper falling
off the end of its loop — raises
`PageNotFoundException("Page: <topic> not found")`; otherwise the word
dictionary of the content is returned. -/
def words_distribution_to_dict (topic : String) (z : RetryOutcome) :
    Except PyExc (List (String × Nat)) :=
  match z with
  | RetryOutcome.raised (PyExc.transport _) => Except.error PyExc.unboundLocal
  | RetryOutcome.raised e => Except.error e
  | RetryOutcome.exhausted =>
    Except.error (PyExc.pageNotFound ("Page: " ++ topic ++ " not found"))
  | RetryOutcome.returned none =>
    Except.error (PyExc.pageNotFound ("Page: " ++ topic ++ " not found"))
  | RetryOutcome.returned (some content) =>
    Except.ok (words_count_dict_of (tokenize content))

/-- `word_distribution_task` (lines 127-139): build the dictionary; on
`PageNotFoundException` print it and return, leaving the table as it
was; on any other exception the exception escapes the task; otherwise
absorb the dictionary under the lock. -/
def word_distribution_task (df : Table) (topic : String) (z : RetryOutcome) :
    Except PyExc Table :=
  match words_distribution_to_dict topic z with
  | Except.error (PyExc.pageNotFound _) => Except.ok df
  | Except.error e => Except.error e
  | Except.ok d => Except.ok (absorbRow df topic d)

/-! ## read_file and main (lines 48-62, 142-161) -/

/-- `read_file` (lines 48-62): `file` is `none` when opening raises
FileNotFoundError, in which case the function prints a message and
falls off the end, returning Python `None`; otherwise each line is
stripped and lower-cased, empty lines included. -/
def read_file (file : Option (List String)) : Option (List String) :=
  match file with
  | none => none
  | some lines => some (lines.map (fun line => line.trim.toLower))

/-- One completed unit of work of the thread pool: a future whose task
raised an exception keeps the exception to itself (`concurrent.futures`
stores it; `wait` never re-raises), so the table is left as the task
left it — and every exception a task can raise occurs before it
mutates the table. -/
def taskStep (fetch : String → RetryOutcome) (t : Table) (topic : String) :
    Table :=
  match word_distribution_task t topic (fetch topic) with
  | Except.ok t' => t'
  | Except.error _ => t

/-- All submitted tasks brought to completion, in the order the lock
happens to serialize their table mutations. -/
def runTasks (fetch : String → RetryOutcome) (df : Table)
    (topics : List String) : Table :=
  topics.foldl (taskStep fetch) df

/-- What a run of `main` observably produces: the table handed to
`to_csv` (or `none` when the `except` branch skipped it), and whether
the `print(f"Unknown Error: ...")` diagnostic fired. -/
structure RunResult where
  csv : Option Table
  unknownErrorReported : Bool

/-- `main` (lines 142-161): read the topic list; when `read_file`
returned `None`, the `for topic in topic_list` inside the try raises
TypeError, caught by `except Exception`, which prints "Unknown Error"
and skips `to_csv`; otherwise every topic is dispatched, all futures
awaited, and the table written. -/
def main (file : Option (List String)) (fetch : String → RetryOutcome) :
    RunResult :=
  match read_file file with
  | none => { csv := none, unknownErrorReported := true }
  | some topics =>
    { csv := some (runTasks fetch (initTable topics) topics)
      unknownErrorReported := false }

/-- A whole pipeline run over a topic list, completions linearized in
the given order. -/
def runAll (fetch : String → RetryOutcome) (topics : List String) : Table :=
  runTasks fetch (initTable topics) topics

/-! ## Specification-side definitions for refinement claims -/

/-- Maximal runs of word characters (the string split at non-word
characters), accumulated left to right. -/
def wordRuns : Option (List Char) → List Char → List (List Char)
  | acc, [] => emit acc
  | acc, c :: cs =>
    if isWordChar c then wordRuns (some (c :: acc.getD [])) cs
    else emit acc ++ wordRuns none cs

/-- The tokenizer's behavior characterized without a regex scan: the
maximal word-character runs that consist entirely of ASCII letters. -/
def amended_tokens (s : String) : List String :=
  ((wordRuns none s.data).filter (fun r => r.all Char.isAlpha)).map
    (fun r => String.mk r)

/-- The claim's own extraction rule, stated from the spec's words:
maximal runs of ASCII letters bounded by non-letter characters or
string boundaries, lower-cased. -/
def letterRuns : Option (List Char) → List Char → List (List Char)
  | acc, [] => emit acc
  | acc, c :: cs =>
    if c.isAlpha then letterRuns (some (c :: acc.getD [])) cs
    else emit acc ++ letterRuns none cs

/-- The word multiset the claim says the tokenizer produces. -/
def spec_letter_run_tokens (s : String) : List String :=
  (letterRuns none s.data).map (fun r => String.mk (r.map Char.toLower))

/-- Observable equality of tables: identical cell contents and the same
column set and row set (order of rows and columns disregarded). -/
def TableEquiv (t₁ t₂ : Table) : Prop :=
  t₁.cells = t₂.cells ∧ (∀ w, w ∈ t₁.cols ↔ w ∈ t₂.cols) ∧
    (∀ r, r ∈ t₁.index ↔ r ∈ t₂.index)

/-! # Lemmas about the word-count dictionary -/

theorem dictLookup_map_incr (d : List (String × Nat)) (w w' : String) :
    dictLookup (d.map (fun p => if p.1 = w then (p.1, p.2 + 1) else p)) w'
      = (dictLookup d w').map (fun v => if w' = w then v + 1 else v) := by
  induction d with
  | nil => simp [dictLookup]
  | cons p d ih =>
    by_cases hw : p.1 = w
    · by_cases hw' : p.1 = w'
      · have hww : w' = w := hw'.symm.trans hw
        simp [dictLookup, hw, hw', hww]
      · have hww : ¬ w = w' := fun h => hw' (hw.trans h)
        simp [dictLookup, hw, hw', hww, ih]
    · by_cases hw' : p.1 = w'
      · have hww : ¬ w' = w := fun h => hw (hw'.trans h)
        simp [dictLookup, hw, hw', hww]
      · simp [dictLookup, hw, hw', ih]

theorem dictLookup_append_single (d : List (String × Nat)) (w w' : String) :
    dictLookup (d ++ [(w, 1)]) w'
      = if (dictLookup d w').isSome then dictLookup d w'
        else if w = w' then some 1 else none := by
  induction d with
  | nil => simp [dictLookup]
  | cons p d ih =>
    by_cases hp : p.1 = w'
    · simp [dictLookup, hp]
    · simp [dictLookup, hp, ih]

theorem addWord_lookup (d : List (String × Nat)) (w w' : String) :
    dictLookup (addWord d w) w'
      = if w' = w then some ((dictLookup d w).getD 0 + 1)
        else dictLookup d w' := by
  unfold addWord
  by_cases h : (dictLookup d w).isSome
  · rw [if_pos h, dictLookup_map_incr]
    by_cases hw : w' = w
    · subst hw
      obtain ⟨v, hv⟩ := Option.isSome_iff_exists.mp h
      simp [hv]
    · simp [hw]
  · rw [if_neg h, dictLookup_append_single]
    have hnone : dictLookup d w = none := Option.not_isSome_iff_eq_none.mp h
    by_cases hw : w' = w
    · subst hw; simp [hnone]
    · cases hl : dictLookup d w' with
      | none => simp [hl, hw, Ne.symm hw]
      | some v => simp [hl, hw]

theorem foldl_addWord_lookup (ws : List String) (d : List (String × Nat))
    (w : String) :
    dictLookup (ws.foldl (fun d v => addWord d v.toLower) d) w
      = if (ws.map String.toLower).count w = 0 then dictLookup d w
        else some ((dictLookup d w).getD 0 + (ws.map String.toLower).count w) := by
  induction ws generalizing d with
  | nil => simp
  | cons v ws ih =>
    simp only [List.foldl_cons, List.map_cons, List.count_cons, beq_iff_eq]
    rw [ih]
    simp only [addWord_lookup]
    by_cases hw : w = v.toLower
    · subst hw
      simp only [eq_self_iff_true, if_true]
      have hne : ¬ (List.count v.toLower (List.map String.toLower ws) + 1 = 0) := by
        omega
      rw [if_neg hne]
      by_cases hc : List.count v.toLower (List.map String.toLower ws) = 0
      · rw [if_pos hc, hc]
      · rw [if_neg hc]
        simp only [Option.getD_some, Option.some.injEq]
        omega
    · have h2 : ¬ v.toLower = w := fun h => hw h.symm
      simp only [if_neg hw, h2, if_false, Nat.add_zero]

theorem words_count_dict_lookup (ws : List String) (w : String) :
    dictLookup (words_count_dict_of ws) w
      = if (ws.map String.toLower).count w = 0 then none
        else some ((ws.map String.toLower).count w) := by
  unfold words_count_dict_of
  rw [foldl_addWord_lookup]
  simp [dictLookup]

theorem not_mem_keys_lookup_none (d : List (String × Nat)) (w : String)
    (h : w ∉ d.map Prod.fst) : dictLookup d w = none := by
  induction d with
  | nil => rfl
  | cons p d ih =>
    simp only [List.map_cons, List.mem_cons, not_or] at h
    have h1 : ¬ p.1 = w := fun hh => h.1 hh.symm
    simp [dictLookup, h1, ih h.2]

theorem lookup_none_not_mem_keys (d : List (String × Nat)) (w : String)
    (h : dictLookup d w = none) : w ∉ d.map Prod.fst := by
  induction d with
  | nil => simp
  | cons p d ih =>
    simp only [dictLookup] at h
    by_cases hp : p.1 = w
    · simp [hp] at h
    · simp only [if_neg hp] at h
      simp only [List.map_cons, List.mem_cons, not_or]
      exact ⟨fun hh => hp hh.symm, ih h⟩

theorem addWord_keys (d : List (String × Nat)) (w : String) :
    (addWord d w).map Prod.fst
      = if (dictLookup d w).isSome then d.map Prod.fst
        else d.map Prod.fst ++ [w] := by
  unfold addWord
  by_cases h : (dictLookup d w).isSome
  · rw [if_pos h, if_pos h, List.map_map]
    congr 1
    funext p
    by_cases hp : p.1 = w <;> simp [hp, Function.comp]
  · rw [if_neg h, if_neg h]
    simp

theorem addWord_keys_nodup (d : List (String × Nat)) (w : String)
    (h : (d.map Prod.fst).Nodup) : ((addWord d w).map Prod.fst).Nodup := by
  rw [addWord_keys]
  by_cases hs : (dictLookup d w).isSome
  · simpa [hs] using h
  · have hnone : dictLookup d w = none := Option.not_isSome_iff_eq_none.mp hs
    have hnm : w ∉ d.map Prod.fst := lookup_none_not_mem_keys d w hnone
    rw [if_neg hs]
    rw [List.nodup_append]
    refine ⟨h, List.nodup_singleton w, ?_⟩
    intro x hx hx1
    simp only [List.mem_singleton] at hx1
    exact hnm (hx1 ▸ hx)

theorem words_count_dict_keys_nodup (ws : List String) :
    ((words_count_dict_of ws).map Prod.fst).Nodup := by
  have gen : ∀ (ws : List String) (d : List (String × Nat)),
      (d.map Prod.fst).Nodup →
      ((ws.foldl (fun d v => addWord d v.toLower) d).map Prod.fst).Nodup := by
    intro ws
    induction ws with
    | nil => intro d hd; simpa using hd
    | cons v ws ih =>
      intro d hd
      exact ih _ (addWord_keys_nodup d v.toLower hd)
  exact gen ws [] (by simp)

/-! # Lemmas about the absorb loop -/

theorem absorbRow_index (t : Table) (topic : String)
    (d : List (String × Nat)) : (absorbRow t topic d).index = t.index := by
  induction d generalizing t with
  | nil => rfl
  | cons p d ih => exact (ih (absorbStep topic t p)).trans rfl

theorem absorbRow_cells_ne (t : Table) (topic tp : String)
    (d : List (String × Nat)) (h : tp ≠ topic) :
    (absorbRow t topic d).cells tp = t.cells tp := by
  induction d generalizing t with
  | nil => rfl
  | cons p d ih =>
    have hstep : (absorbStep topic t p).cells tp = t.cells tp := by
      funext wd
      simp [absorbStep, h]
    exact (ih (absorbStep topic t p)).trans hstep

theorem absorbRow_cells_row (t : Table) (topic : String)
    (d : List (String × Nat)) :
    (absorbRow t topic d).cells topic = rowUpd d (t.cells topic) := by
  induction d generalizing t with
  | nil => rfl
  | cons p d ih =>
    have hstep : (absorbStep topic t p).cells topic
        = fun wd => if wd = p.1 then some p.2 else t.cells topic wd := by
      funext wd
      simp [absorbStep]
    calc (absorbRow t topic (p :: d)).cells topic
        = rowUpd d ((absorbStep topic t p).cells topic) := ih _
      _ = rowUpd (p :: d) (t.cells topic) := by rw [hstep]; rfl

theorem rowUpd_lookup_none (d : List (String × Nat))
    (row : String → Option Nat) (w : String) (h : dictLookup d w = none) :
    rowUpd d row w = row w := by
  induction d generalizing row with
  | nil => rfl
  | cons p d ih =>
    simp only [dictLookup] at h
    by_cases hp : p.1 = w
    · simp [hp] at h
    · simp only [if_neg hp] at h
      have := ih (fun wd => if wd = p.1 then some p.2 else row wd) h
      rw [rowUpd] at this ⊢
      simp only [List.foldl_cons]
      rw [this]
      have h1 : ¬ w = p.1 := fun hh => hp hh.symm
      simp [h1]

theorem rowUpd_lookup_some (d : List (String × Nat))
    (row : String → Option Nat) (w : String) (c : Nat)
    (hn : (d.map Prod.fst).Nodup) (h : dictLookup d w = some c) :
    rowUpd d row w = some c := by
  induction d generalizing row with
  | nil => simp [dictLookup] at h
  | cons p d ih =>
    simp only [List.map_cons, List.nodup_cons] at hn
    simp only [dictLookup] at h
    by_cases hp : p.1 = w
    · simp only [if_pos hp, Option.some.injEq] at h
      have hnone : dictLookup d w = none :=
        not_mem_keys_lookup_none d w (hp ▸ hn.1)
      have hskip := rowUpd_lookup_none d
        (fun wd => if wd = p.1 then some p.2 else row wd) w hnone
      rw [rowUpd] at hskip ⊢
      simp only [List.foldl_cons]
      rw [hskip]
      simp [hp, h]
    · simp only [if_neg hp] at h
      have := ih (fun wd => if wd = p.1 then some p.2 else row wd) hn.2 h
      rw [rowUpd] at this ⊢
      simpa using this

theorem absorbRow_cols_mem (t : Table) (topic w : String)
    (d : List (String × Nat)) :
    w ∈ (absorbRow t topic d).cols ↔ w ∈ t.cols ∨ ∃ c, (w, c) ∈ d := by
  induction d generalizing t with
  | nil => simp [absorbRow]
  | cons p d ih =>
    have hstep : w ∈ (absorbStep topic t p).cols ↔ w ∈ t.cols ∨ w = p.1 := by
      simp only [absorbStep]
      by_cases hc : p.1 ∈ t.cols
      · simp only [if_pos hc]
        constructor
        · exact Or.inl
        · rintro (hw | rfl)
          · exact hw
          · exact hc
      · simp [if_neg hc]
    have : (∃ c, (w, c) ∈ p :: d) ↔ w = p.1 ∨ ∃ c, (w, c) ∈ d := by
      constructor
      · rintro ⟨c, hc⟩
        rcases List.mem_cons.mp hc with hh | hh
        · left; exact congrArg Prod.fst hh
        · right; exact ⟨c, hh⟩
      · rintro (rfl | ⟨c, hc⟩)
        · exact ⟨p.2, List.mem_cons_self _ _⟩
        · exact ⟨c, List.mem_cons_of_mem _ hc⟩
    rw [absorbRow, List.foldl_cons]
    rw [show List.foldl (absorbStep topic) (absorbStep topic t p) d
        = absorbRow (absorbStep topic t p) topic d from rfl]
    rw [ih, hstep, this]
    tauto

theorem absorbRow_cells_congr (t₁ t₂ : Table) (topic : String)
    (d : List (String × Nat)) (h : t₁.cells = t₂.cells) :
    (absorbRow t₁ topic d).cells = (absorbRow t₂ topic d).cells := by
  induction d generalizing t₁ t₂ with
  | nil => exact h
  | cons p d ih =>
    apply ih
    simp only [absorbStep]
    rw [h]

/-! # The regex scan agrees with filtering the word-character runs -/

theorem scan_eq_wordRuns_filter (l : List Char) :
    (scanWords false none l
        = (wordRuns none l).filter (fun r => r.all Char.isAlpha))
      ∧ (∀ r, r.all Char.isAlpha = true →
          scanWords true (some r) l
            = (wordRuns (some r) l).filter (fun r => r.all Char.isAlpha))
      ∧ (∀ r, r.all Char.isAlpha = false →
          scanWords true none l
            = (wordRuns (some r) l).filter (fun r => r.all Char.isAlpha)) := by
  induction l with
  | nil =>
    refine ⟨rfl, ?_, ?_⟩
    · intro r hr
      have : (r.reverse.all Char.isAlpha) = true := by
        rw [List.all_reverse]; exact hr
      simp [scanWords, wordRuns, emit, List.filter_cons, this]
    · intro r hr
      have : (r.reverse.all Char.isAlpha) = false := by
        rw [List.all_reverse]; exact hr
      simp [scanWords, wordRuns, emit, List.filter_cons, this]
  | cons c cs ih =>
    obtain ⟨ihA, ihB, ihC⟩ := ih
    have hWofA : c.isAlpha = true → isWordChar c = true := by
      intro h; simp [isWordChar, h]
    refine ⟨?_, ?_, ?_⟩
    · by_cases hA : c.isAlpha
      · have hW := hWofA hA
        simp only [scanWords, wordRuns, hA, hW, if_true, if_false,
          Option.getD_none]
        exact ihB [c] (by simp [hA])
      · by_cases hW : isWordChar c
        · simp only [scanWords, wordRuns, hA, hW, if_true, if_false,
            Bool.false_eq_true, Option.getD_none]
          exact ihC [c] (by simp [hA])
        · simp only [scanWords, wordRuns, hA, hW, if_false,
            Bool.false_eq_true, emit, List.nil_append]
          rw [ihA]
    · intro r hr
      by_cases hA : c.isAlpha
      · have hW := hWofA hA
        simp only [scanWords, wordRuns, hA, hW, if_true, Option.getD_some]
        exact ihB (c :: r) (by simp [List.all_cons, hA, hr])
      · by_cases hW : isWordChar c
        · simp only [scanWords, wordRuns, hA, hW, if_true, if_false,
            Bool.false_eq_true, Option.getD_some]
          exact ihC (c :: r) (by simp [List.all_cons, hA])
        · have hrev : (r.reverse.all Char.isAlpha) = true := by
            rw [List.all_reverse]; exact hr
          simp only [scanWords, wordRuns, hA, hW, if_false,
            Bool.false_eq_true, emit, List.singleton_append,
            List.cons_append, List.nil_append]
          rw [ihA]
          simp [List.filter_cons, hrev]
    · intro r hr
      by_cases hA : c.isAlpha
      · have hW := hWofA hA
        simp only [scanWords, wordRuns, hA, hW, if_true, Option.getD_some]
        exact ihC (c :: r) (by simp [List.all_cons, hr])
      · by_cases hW : isWordChar c
        · simp only [scanWords, wordRuns, hA, hW, if_true, if_false,
            Bool.false_eq_true, Option.getD_some]
          exact ihC (c :: r) (by simp [List.all_cons, hA])
        · have hrev : (r.reverse.all Char.isAlpha) = false := by
            rw [List.all_reverse]; exact hr
          simp only [scanWords, wordRuns, hA, hW, if_false,
            Bool.false_eq_true, emit, List.singleton_append,
            List.cons_append, List.nil_append]
          rw [ihA]
          simp [List.filter_cons, hrev]

theorem tokenize_eq_amended (s : String) : tokenize s = amended_tokens s := by
  unfold tokenize amended_tokens
  rw [(scan_eq_wordRuns_filter s.data).1]

/-! # Lemmas about the retry loop -/

theorem retryLoop_skip (k : Nat) (f : Nat → Except PyExc (Option String)) :
    ∀ calls fuel, k ≤ fuel →
      (∀ j, calls ≤ j → j < calls + k → f j = Except.error PyExc.rateLimit) →
      retryLoop f calls fuel = retryLoop f (calls + k) (fuel - k) := by
  induction k with
  | zero => intro calls fuel _ _; rfl
  | succ k ih =>
    intro calls fuel hk h
    obtain ⟨fuel', rfl⟩ : ∃ m, fuel = m + 1 :=
      ⟨fuel - 1, by omega⟩
    have hcalls : f calls = Except.error PyExc.rateLimit :=
      h calls (Nat.le_refl _) (by omega)
    have step : retryLoop f calls (fuel' + 1) = retryLoop f (calls + 1) fuel' := by
      simp only [retryLoop, hcalls]
    rw [step, ih (calls + 1) fuel' (by omega)
      (fun j hj1 hj2 => h j (by omega) (by omega))]
    congr 1
    · omega
    · omega

/-! # Lemmas about one pool task -/

theorem taskStep_eq (fetch : String → RetryOutcome) (t : Table)
    (topic : String) :
    taskStep fetch t topic
      = match words_distribution_to_dict topic (fetch topic) with
        | Except.ok d => absorbRow t topic d
        | Except.error _ => t := by
  unfold taskStep word_distribution_task
  cases h : words_distribution_to_dict topic (fetch topic) with
  | ok d => rfl
  | error e => cases e <;> rfl

theorem tableEquiv_refl (t : Table) : TableEquiv t t :=
  ⟨rfl, fun _ => Iff.rfl, fun _ => Iff.rfl⟩

theorem tableEquiv_trans {t₁ t₂ t₃ : Table} (h₁ : TableEquiv t₁ t₂)
    (h₂ : TableEquiv t₂ t₃) : TableEquiv t₁ t₃ :=
  ⟨h₁.1.trans h₂.1,
    fun w => (h₁.2.1 w).trans (h₂.2.1 w),
    fun r => (h₁.2.2 r).trans (h₂.2.2 r)⟩

theorem absorbRow_equiv (t₁ t₂ : Table) (topic : String)
    (d : List (String × Nat)) (h : TableEquiv t₁ t₂) :
    TableEquiv (absorbRow t₁ topic d) (absorbRow t₂ topic d) := by
  refine ⟨absorbRow_cells_congr t₁ t₂ topic d h.1, ?_, ?_⟩
  · intro w
    rw [absorbRow_cols_mem, absorbRow_cols_mem]
    have := h.2.1 w
    tauto
  · intro r
    rw [absorbRow_index, absorbRow_index]
    exact h.2.2 r

theorem taskStep_equiv (fetch : String → RetryOutcome) (t₁ t₂ : Table)
    (topic : String) (h : TableEquiv t₁ t₂) :
    TableEquiv (taskStep fetch t₁ topic) (taskStep fetch t₂ topic) := by
  rw [taskStep_eq, taskStep_eq]
  cases words_distribution_to_dict topic (fetch topic) with
  | ok d => exact absorbRow_equiv t₁ t₂ topic d h
  | error e => exact h

theorem taskStep_comm (fetch : String → RetryOutcome) (t : Table)
    (a b : String) :
    TableEquiv (taskStep fetch (taskStep fetch t a) b)
      (taskStep fetch (taskStep fetch t b) a) := by
  by_cases hab : a = b
  · subst hab; exact tableEquiv_refl _
  · rw [taskStep_eq fetch t a, taskStep_eq fetch t b,
      taskStep_eq fetch _ b, taskStep_eq fetch _ a]
    cases ha : words_distribution_to_dict a (fetch a) with
    | error ea =>
      cases hb : words_distribution_to_dict b (fetch b) with
      | error eb => exact tableEquiv_refl _
      | ok db => exact tableEquiv_refl _
    | ok da =>
      cases hb : words_distribution_to_dict b (fetch b) with
      | error eb => exact tableEquiv_refl _
      | ok db =>
        refine ⟨?_, ?_, ?_⟩
        · funext tp wd
          by_cases hta : tp = a
          · subst hta
            rw [absorbRow_cells_ne (absorbRow t tp da) b tp db hab,
              absorbRow_cells_row t tp da,
              absorbRow_cells_row (absorbRow t b db) tp da,
              absorbRow_cells_ne t b tp db hab]
          · by_cases htb : tp = b
            · subst htb
              rw [absorbRow_cells_row (absorbRow t a da) tp db,
                absorbRow_cells_ne t a tp da hta,
                absorbRow_cells_ne (absorbRow t tp db) a tp da hta,
                absorbRow_cells_row t tp db]
            · rw [absorbRow_cells_ne (absorbRow t a da) b tp db htb,
                absorbRow_cells_ne t a tp da hta,
                absorbRow_cells_ne (absorbRow t b db) a tp da hta,
                absorbRow_cells_ne t b tp db htb]
        · intro w
          rw [absorbRow_cols_mem, absorbRow_cols_mem,
            absorbRow_cols_mem, absorbRow_cols_mem]
          tauto
        · intro r
          rw [absorbRow_index, absorbRow_index,
            absorbRow_index, absorbRow_index]

theorem foldl_taskStep_equiv (fetch : String → RetryOutcome)
    (l : List String) : ∀ t₁ t₂, TableEquiv t₁ t₂ →
      TableEquiv (l.foldl (taskStep fetch) t₁) (l.foldl (taskStep fetch) t₂) := by
  induction l with
  | nil => intro t₁ t₂ h; exact h
  | cons x l ih =>
    intro t₁ t₂ h
    simp only [List.foldl_cons]
    exact ih _ _ (taskStep_equiv fetch t₁ t₂ x h)

theorem foldl_taskStep_perm (fetch : String → RetryOutcome)
    {l₁ l₂ : List String} (hp : l₁.Perm l₂) : ∀ t₁ t₂, TableEquiv t₁ t₂ →
      TableEquiv (l₁.foldl (taskStep fetch) t₁) (l₂.foldl (taskStep fetch) t₂) := by
  induction hp with
  | nil => intro t₁ t₂ h; exact h
  | cons x _ ih =>
    intro t₁ t₂ h
    simp only [List.foldl_cons]
    exact ih _ _ (taskStep_equiv fetch t₁ t₂ x h)
  | swap x y l =>
    intro t₁ t₂ h
    simp only [List.foldl_cons]
    apply foldl_taskStep_equiv
    exact tableEquiv_trans
      (taskStep_equiv fetch _ _ x (taskStep_equiv fetch t₁ t₂ y h))
      (taskStep_comm fetch t₂ y x)
  | trans _ _ ih₁ ih₂ =>
    intro t₁ t₂ h
    exact tableEquiv_trans (ih₁ t₁ t₁ (tableEquiv_refl t₁)) (ih₂ t₁ t₂ h)

/-! # The claims -/

/-- C1: for a topic whose fetch succeeded with content text `content`,
after that topic's single absorb the table has, for every word `w`,
`cell(topic, w)` equal to the number of occurrences of `w` in the
content (the multiplicity of `w` among the lower-cased extracted
words), and absent (`none`) when `w` does not occur — provided the
topic's row was all-absent beforehand, as it is for the single absorb
a run performs per topic. -/
theorem c1_absorb_cell_eq_count (tb : Table) (topic content w : String)
    (hrow : ∀ w', tb.cells topic w' = none) :
    (absorbRow tb topic (words_count_dict_of (tokenize content))).cells topic w
      = if ((tokenize content).map String.toLower).count w = 0 then none
        else some (((tokenize content).map String.toLower).count w) := by
  have hlk := words_count_dict_lookup (tokenize content) w
  by_cases hc : ((tokenize content).map String.toLower).count w = 0
  · rw [if_pos hc, absorbRow_cells_row,
      rowUpd_lookup_none _ _ _ (by rw [hlk, if_pos hc])]
    exact hrow w
  · rw [if_neg hc, absorbRow_cells_row]
    exact rowUpd_lookup_some _ _ _ _ (words_count_dict_keys_nodup _)
      (by rw [hlk, if_neg hc])

/-- Witness for C1 at a concrete input: absorbing "cat cat dog" for
topic "cat" puts the occurrence count of "cat" into that cell. -/
theorem c1_witness :
    (absorbRow (initTable ["cat"]) "cat"
        (words_count_dict_of (tokenize "cat cat dog"))).cells "cat" "cat"
      = if ((tokenize "cat cat dog").map String.toLower).count "cat" = 0
        then none
        else some (((tokenize "cat cat dog").map String.toLower).count "cat") :=
  c1_absorb_cell_eq_count (initTable ["cat"]) "cat" "cat cat dog" "cat"
    (fun _ => rfl)

/-- C2 counterexample: the claim says a letter run adjacent to a digit
(as in "cat1") is still counted, but the source regex
`\b[a-zA-Z]+\b` requires word boundaries, and a digit is a word
character: `tokenize "cat1"` is empty, while the claim's own
letter-run extraction yields \x7b"cat"\x7d. -/
theorem c2_counterexample :
    tokenize "cat1" = [] ∧ spec_letter_run_tokens "cat1" = ["cat"] :=
  ⟨rfl, rfl⟩

/-- C2 amended: the tokenizer produces exactly the maximal runs of word
characters (letters, digits, underscore) that consist entirely of
ASCII letters — a letter run adjacent to a digit or underscore yields
no word at all — and the WordCount maps each lower-cased such word to
its multiplicity, words with zero occurrences being absent. -/
theorem c2_amended_tokenizer (s w : String) :
    tokenize s = amended_tokens s
      ∧ dictLookup (words_count_dict_of (tokenize s)) w
        = (if ((amended_tokens s).map String.toLower).count w = 0 then none
           else some (((amended_tokens s).map String.toLower).count w)) := by
  refine ⟨tokenize_eq_amended s, ?_⟩
  rw [words_count_dict_lookup, tokenize_eq_amended s]

/-- C3 counterexample: a parsed response lacking the top-level "query"
key makes `get_wikipedia_page` print an error and return None (the
not-found path), not raise `RateLimitException` as the claim states. -/
theorem c3_counterexample :
    get_wikipedia_page_once { status_code := 200, body := Json.obj [] }
        = Except.ok none
      ∧ get_wikipedia_page_once { status_code := 200, body := Json.obj [] }
        ≠ Except.error PyExc.rateLimit :=
  ⟨rfl, fun h => Except.noConfusion h⟩

/-- C3 amended: on a non-429 response, a null JSON body raises
`RateLimitException`, while a parsed non-null body lacking the "query"
key returns None — downstream indistinguishable from a not-found page,
and not treated as rate-limited. -/
theorem c3_amended_null_vs_missing_query (status : Nat) (b : Json)
    (h429 : status ≠ 429) (hq : b.hasKey "query" = false)
    (hnull : b.isNull = false) :
    get_wikipedia_page_once { status_code := status, body := b }
        = Except.ok none
      ∧ get_wikipedia_page_once { status_code := status, body := Json.null }
        = Except.error PyExc.rateLimit := by
  constructor
  · simp [get_wikipedia_page_once, h429, hq, hnull]
  · simp [get_wikipedia_page_once, h429, Json.isNull]

/-- Witness for C3 at a concrete response. -/
theorem c3_witness :
    get_wikipedia_page_once
        { status_code := 200, body := Json.obj [("foo", Json.null)] }
        = Except.ok none
      ∧ get_wikipedia_page_once { status_code := 200, body := Json.null }
        = Except.error PyExc.rateLimit :=
  c3_amended_null_vs_missing_query 200 (Json.obj [("foo", Json.null)])
    (by decide) rfl rfl

/-- C4: when every attempt raises `RateLimitException`, the retry
wrapper makes exactly 3 calls (never a 4th), logs the
"Could not retrieve" failure and returns without raising
(`RetryOutcome.exhausted`), and the per-topic task then completes
normally with the table unchanged — the failure is not fatal. -/
theorem c4_retry_exactly_three (f : Nat → Except PyExc (Option String))
    (df : Table) (topic : String)
    (h : ∀ i, i < max_retries → f i = Except.error PyExc.rateLimit) :
    retry_on_rate_limit_exception f = (3, RetryOutcome.exhausted)
      ∧ word_distribution_task df topic (retry_on_rate_limit_exception f).2
        = Except.ok df := by
  have hmain : retry_on_rate_limit_exception f = (3, RetryOutcome.exhausted) := by
    unfold retry_on_rate_limit_exception
    rw [retryLoop_skip 3 f 0 max_retries (by decide)
      (fun j _ hj2 => h j (by simp only [max_retries]; omega))]
    rfl
  refine ⟨hmain, ?_⟩
  rw [hmain]
  rfl

/-- Witness for C4: the constantly rate-limited fetch. -/
theorem c4_witness :
    retry_on_rate_limit_exception (fun _ => Except.error PyExc.rateLimit)
        = (3, RetryOutcome.exhausted)
      ∧ word_distribution_task (initTable ["cat"]) "cat"
          (retry_on_rate_limit_exception
            (fun _ => Except.error PyExc.rateLimit)).2
        = Except.ok (initTable ["cat"]) :=
  c4_retry_exactly_three _ (initTable ["cat"]) "cat" (fun _ _ => rfl)

/-- C5: the wrapper returns immediately at the first attempt whose
result is not `RateLimitException`: after `i` rate-limited attempts, a
return value (Content or NotFound) is passed through and any other
exception (the transport errors) propagates, in both cases after
exactly `i + 1` calls and no further attempt — only the rate-limited
path loops. -/
theorem c5_first_final_outcome_returns
    (f : Nat → Except PyExc (Option String)) (i : Nat)
    (h1 : i < max_retries)
    (h2 : ∀ j, j < i → f j = Except.error PyExc.rateLimit)
    (h3 : f i ≠ Except.error PyExc.rateLimit) :
    retry_on_rate_limit_exception f = (i + 1, attemptOutcome (f i)) := by
  unfold retry_on_rate_limit_exception
  rw [retryLoop_skip i f 0 max_retries
    (by simp only [max_retries] at h1 ⊢; omega)
    (fun j _ hj2 => h2 j (by omega))]
  have hi : max_retries - i = (max_retries - i - 1) + 1 := by
    simp only [max_retries] at h1 ⊢; omega
  rw [hi]
  simp only [Nat.zero_add]
  cases hf : f i with
  | ok v => simp [retryLoop, hf, attemptOutcome]
  | error e =>
    cases e with
    | rateLimit => exact absurd hf h3
    | transport d => simp [retryLoop, hf, attemptOutcome]
    | pageNotFound m => simp [retryLoop, hf, attemptOutcome]
    | keyError => simp [retryLoop, hf, attemptOutcome]
    | unboundLocal => simp [retryLoop, hf, attemptOutcome]

/-- Witness for C5: one rate-limited attempt, then content on the
second attempt; the wrapper stops after 2 calls with that result. -/
theorem c5_witness :
    retry_on_rate_limit_exception
        (fun j => if j = 0 then Except.error PyExc.rateLimit
                  else Except.ok (some "cat dog"))
      = (1 + 1, attemptOutcome
          ((fun j => if j = 0 then Except.error PyExc.rateLimit
                     else Except.ok (some "cat dog")) 1)) :=
  c5_first_final_outcome_returns _ 1 (by decide)
    (fun j hj => by
      have hj0 : j = 0 := by omega
      subst hj0
      rfl)
    (fun h => by simp at h)

/-- C6: over any sequence of absorb operations the column set grows
monotonically — a column present before an absorb (or any suffix of
absorbs) is still present afterwards; no column is ever removed. -/
theorem c6_columns_monotone (ops : List (String × List (String × Nat)))
    (tb : Table) (w : String) (h : w ∈ tb.cols) :
    w ∈ (absorbMany tb ops).cols := by
  induction ops generalizing tb with
  | nil => exact h
  | cons p ops ih =>
    have hstep : absorbMany tb (p :: ops)
        = absorbMany (absorbRow tb p.1 p.2) ops := rfl
    rw [hstep]
    exact ih _ (by rw [absorbRow_cols_mem]; exact Or.inl h)

/-- Witness for C6: an existing column "a" survives a later absorb of
an unrelated topic and word. -/
theorem c6_witness :
    ("a" : String) ∈ (Table.mk [] ["a"] (fun _ _ => none)).cols
      ∧ "a" ∈ (absorbMany (Table.mk [] ["a"] (fun _ _ => none))
          [("dog", [("x", 1)])]).cols :=
  ⟨by simp, c6_columns_monotone _ _ _ (by simp)⟩

/-- C7 (code bug): when the wrapped fetch propagates a transport error,
`words_distribution_to_dict` catches it and prints, but then reads the
never-assigned local `page_content`, so the task raises
UnboundLocalError instead of reporting and returning; the
exhausted-retries path by contrast does return with the table
unchanged. The future swallows the exception, so siblings and the run
still proceed, but the task does not return normally as claimed. -/
theorem c7_transport_raises_unbound_local :
    word_distribution_task (initTable ["x"]) "x"
        (RetryOutcome.raised (PyExc.transport "connection refused"))
      = Except.error PyExc.unboundLocal
      ∧ word_distribution_task (initTable ["x"]) "x" RetryOutcome.exhausted
        = Except.ok (initTable ["x"]) :=
  ⟨rfl, rfl⟩

/-- C8 counterexample: with the topic file absent, `read_file` yields
Python None — not an empty or partial list — and `main` writes no
result file at all (the claim promised an empty result). -/
theorem c8_counterexample :
    read_file none = none
      ∧ (main none (fun _ => RetryOutcome.exhausted)).csv = none :=
  ⟨rfl, rfl⟩

/-- C8 amended: with the topic file absent, `read_file` reports the
error and returns None; iterating it in `main` raises TypeError, which
the catch-all turns into an "Unknown Error" diagnostic; zero topics are
processed and no CSV is produced. Empty lines are not reported: they
are kept as empty-string topics. -/
theorem c8_amended_absent_file (fetch : String → RetryOutcome)
    (lines : List String) :
    (main none fetch).csv = none
      ∧ (main none fetch).unknownErrorReported = true
      ∧ read_file none = none
      ∧ read_file (some lines) = some (lines.map (fun l => l.trim.toLower)) :=
  ⟨rfl, rfl, rfl, rfl⟩

/-- C9: two runs over permuted topic lists — equivalently, with a pool
of 1 worker versus K > 1 workers, since the lock serializes absorbs
into some order and the per-topic fetch results are fixed — produce
observably equal tables: the same cell contents and the same column
and row sets. -/
theorem c9_schedule_irrelevant (topics₁ topics₂ : List String)
    (fetch : String → RetryOutcome) (h : topics₁.Perm topics₂) :
    TableEquiv (runAll fetch topics₁) (runAll fetch topics₂) := by
  unfold runAll runTasks
  exact foldl_taskStep_perm fetch h (initTable topics₁) (initTable topics₂)
    ⟨rfl, fun _ => Iff.rfl, fun r => h.mem_iff⟩

/-- Witness for C9: the spec's two-topic scenario in both orders. -/
theorem c9_witness :
    (["cat", "dog"] : List String).Perm ["dog", "cat"]
      ∧ TableEquiv
          (runAll (fun t => if t = "cat"
              then RetryOutcome.returned (some "cat cat dog")
              else RetryOutcome.returned (some "dog dog cat"))
            ["cat", "dog"])
          (runAll (fun t => if t = "cat"
              then RetryOutcome.returned (some "cat cat dog")
              else RetryOutcome.returned (some "dog dog cat"))
            ["dog", "cat"]) :=
  ⟨by decide, c9_schedule_irrelevant _ _ _ (by decide)⟩

/-- C10: when every attempt is rate-limited the wrapper returns None
(`exhausted`), and `words_distribution_to_dict` raises exactly the same
`PageNotFoundException("Page: <topic> not found")` it raises for a
genuine not-found page (which `get_wikipedia_page` reports by
returning None, e.g. for the sentinel page id "-1") — the two cases
are indistinguishable at the task boundary. -/
theorem c10_exhausted_reported_as_not_found
    (f : Nat → Except PyExc (Option String)) (topic : String)
    (h : ∀ i, i < max_retries → f i = Except.error PyExc.rateLimit) :
    words_distribution_to_dict topic (retry_on_rate_limit_exception f).2
        = Except.error (PyExc.pageNotFound ("Page: " ++ topic ++ " not found"))
      ∧ words_distribution_to_dict topic (RetryOutcome.returned none)
        = Except.error (PyExc.pageNotFound ("Page: " ++ topic ++ " not found"))
      ∧ (get_wikipedia_page (fun _ =>
            { status_code := 200
              body := Json.obj [("query", Json.obj [("pages",
                Json.obj [("-1", Json.obj [])])])] })).2
        = RetryOutcome.returned none := by
  have hmain : retry_on_rate_limit_exception f = (3, RetryOutcome.exhausted) := by
    unfold retry_on_rate_limit_exception
    rw [retryLoop_skip 3 f 0 max_retries (by decide)
      (fun j _ hj2 => h j (by simp only [max_retries]; omega))]
    rfl
  exact ⟨by rw [hmain]; rfl, rfl, rfl⟩

/-- Witness for C10: the constantly rate-limited fetch for topic
"cat". -/
theorem c10_witness :
    words_distribution_to_dict "cat"
        (retry_on_rate_limit_exception
          (fun _ => Except.error PyExc.rateLimit)).2
        = Except.error (PyExc.pageNotFound ("Page: " ++ "cat" ++ " not found"))
      ∧ words_distribution_to_dict "cat" (RetryOutcome.returned none)
        = Except.error (PyExc.pageNotFound ("Page: " ++ "cat" ++ " not found"))
      ∧ (get_wikipedia_page (fun _ =>
            { status_code := 200
              body := Json.obj [("query", Json.obj [("pages",
                Json.obj [("-1", Json.obj [])])])] })).2
        = RetryOutcome.returned none :=
  c10_exhausted_reported_as_not_found _ "cat" (fun _ _ => rfl)

end WikiWC
